import Mathlib

/-!
Shallow embedding of the Sora 2 Studio orchestration code (src/app.py):
the `SoraClient` request wrappers (`create_job`, `get_status`,
`download_video`) and the batch submit/poll loop of `main`.

Network effects are modelled by passing the transport outcome of each
HTTP call in as data (`TransportResult` / `DownloadTransport`); JSON
bodies are modelled by the tolerant record `ResponseDict`, whose fields
are exactly the keys the program reads (`id`, `status`, `progress`,
`error`).  Python exceptions that the program does not catch are
modelled with `Except`; exceptions it catches are part of the modelled
control flow.  Streamlit UI calls are external output and are recorded
as `Event`s.
-/

/-- A JSON progress value as the program can receive it: a number or a
string (the program converts it with Python `int`). -/
inductive ProgressVal where
  | num (n : Int)
  | str (s : String)
  deriving Repr, DecidableEq

/-- Tolerant view of a parsed JSON response body: exactly the keys the
program reads via `.get`/`[...]`; a `none` field models an absent key. -/
structure ResponseDict where
  id : Option String := none
  status : Option String := none
  progress : Option ProgressVal := none
  error : Option String := none
  deriving Repr, DecidableEq

/-- Outcome of one HTTP request: a transport-level failure
(`requests.exceptions.RequestException` other than `HTTPError`), or an
HTTP response with status code, body text and parsed JSON body. -/
inductive TransportResult where
  | transportError (msg : String)
  | http (code : Nat) (bodyText : String) (json : ResponseDict)
  deriving Repr

/-- The string `str(e)` of the `requests.exceptions.HTTPError` raised by
`response.raise_for_status()` for an error status code; modelled
abstractly as a function of the code. -/
def httpErrorStr (code : Nat) : String :=
  toString code ++ " Error"

/-- Whether `response.raise_for_status()` raises: requests raises
`HTTPError` for status codes 400-599. -/
def raisesForStatus (code : Nat) : Bool :=
  400 ≤ code ∧ code < 600

/-- The fixed message returned by `SoraClient.create_job` for HTTP 401. -/
def invalidKeyMsg : String :=
  "Invalid API Key. Please check your credentials."

/-- Embedding of `SoraClient.create_job` (src/app.py lines 19-37), as a
function of the transport outcome of its single POST: on success the
parsed JSON is returned; `HTTPError` with code 401 yields the dedicated
invalid-key dictionary; any other `HTTPError` yields
`e.response.text or str(e)` as the error; any other
`RequestException` yields a connection-error dictionary. -/
def create_job (r : TransportResult) : ResponseDict :=
  match r with
  | .transportError msg => { error := some ("Connection error: " ++ msg) }
  | .http code bodyText json =>
    if raisesForStatus code then
      if code = 401 then { error := some invalidKeyMsg }
      else { error := some (if bodyText.isEmpty then httpErrorStr code else bodyText) }
    else json

/-- Embedding of `SoraClient.get_status` (src/app.py lines 39-46): any
exception (HTTP error or transport failure) is caught and reported as a
snapshot with status `"error"` and the exception text. -/
def get_status (r : TransportResult) : ResponseDict :=
  match r with
  | .transportError msg => { status := some "error", error := some msg }
  | .http code _ json =>
    if raisesForStatus code then
      { status := some "error", error := some (httpErrorStr code) }
    else json

/-- Outcome of the GET for `/videos/id/content`: transport failure, or
an HTTP response with status code, optional Content-Length header and a
body of `content` bytes (only the byte count is modelled). -/
inductive DownloadTransport where
  | transportError (msg : String)
  | http (code : Nat) (contentLength : Option Nat) (content : Nat)
  deriving Repr, DecidableEq

/-- Embedding of `SoraClient.download_video` (src/app.py lines 48-55).
The source issues one plain `requests.get` (no `stream=True`) and
returns `response.content`, the entire body read in a single piece: it
has no chunk loop, never consults the Content-Length header, and takes
no progress callback, so the trace of progress-callback invocations
(the second component of the result) is the empty list on every input.
Any exception is re-raised as `RuntimeError("Download failed: ...")`. -/
def download_video (r : DownloadTransport) : Except String (Nat × List Rat) :=
  match r with
  | .transportError msg => .error ("Download failed: " ++ msg)
  | .http code _ content =>
    if raisesForStatus code then .error ("Download failed: " ++ httpErrorStr code)
    else .ok (content, [])

/-- Python truthiness of a progress value: `0` and `""` are falsy. -/
def pyTruthy : ProgressVal → Bool
  | .num n => n ≠ 0
  | .str s => s ≠ ""

/-- Accumulate decimal digits; any non-digit character fails. -/
def pyDigitsAux (acc : Nat) : List Char → Option Nat
  | [] => some acc
  | c :: cs =>
    if c.isDigit then pyDigitsAux (acc * 10 + (c.toNat - 48)) cs else none

/-- Python `int` applied to a string: an optional leading minus sign
followed by decimal digits; anything else raises `ValueError`. -/
def pyStrToInt (s : String) : Option Int :=
  match s.data with
  | [] => none
  | c :: cs =>
    if c = '-' then
      if cs.isEmpty then none else (pyDigitsAux 0 cs).map (fun n => -(n : Int))
    else (pyDigitsAux 0 (c :: cs)).map (fun n => (n : Int))

/-- Python `int(x)` on a progress value: numbers pass through, strings
are parsed, and a non-numeric string raises `ValueError`. -/
def pyInt : ProgressVal → Except String Int
  | .num n => .ok n
  | .str s =>
    match pyStrToInt s with
    | some n => .ok n
    | none => .error ("invalid literal for int with base 10: " ++ s)

/-- Observable output of the batch loop: Streamlit UI calls, the
`time.sleep(4)` pauses, and each `client.get_status` poll that is
issued.  `i` is the position of the job in the submission order (the
job dictionaries of the source are pairwise distinct objects because
each holds its own `ui_placeholder`; `i` models that identity). -/
inductive Event where
  | slept (t : Nat)
  | submitAttempt (i : Nat)
  | submitError (i : Nat) (msg : String)
  | polled (i : Nat)
  | statusShown (i : Nat) (s : String)
  | barCreated (i : Nat)
  | barSet (i : Nat) (v : Int)
  | ready (i : Nat)
  | videoShown (i : Nat)
  | dlFailed (i : Nat) (msg : String)
  | failedMsg (i : Nat)
  deriving Repr, DecidableEq

/-- One entry of the `jobs` / `active_jobs` lists of `main`: the
submission index `idx` (standing for the unique `ui_placeholder`
object), the remote job `id`, how many polls were issued so far, the
environment of poll responses (`schedule n` is the transport outcome of
the n-th `get_status` call for this job), the transport outcome of its
artifact download, and whether `progress_bar` has been created. -/
structure Job where
  idx : Nat
  id : String
  polls : Nat
  schedule : Nat → TransportResult
  dl : DownloadTransport
  barCreated : Bool

/-- The parsed body `data` that one poll of job `j` observes. -/
def pollResponse (j : Job) : ResponseDict :=
  get_status (j.schedule j.polls)

/-- `data.get("status", "unknown")` of the current poll. -/
def newStatusOf (j : Job) : String :=
  (pollResponse j).status.getD "unknown"

/-- `data.get("progress", 0)` of the current poll. -/
def progressOf (j : Job) : ProgressVal :=
  (pollResponse j).progress.getD (.num 0)

/-- The source line `current_prog = int(progress) if progress else 0`:
guarded only by truthiness, so a truthy non-numeric value raises. -/
def currentProg (j : Job) : Except String Int :=
  if pyTruthy (progressOf j) then pyInt (progressOf j) else .ok 0

/-- State of the job dictionary after one visit: the poll was issued
(so the next response index advances) and `progress_bar` exists. -/
def pollNewJob (j : Job) : Job :=
  { j with polls := j.polls + 1, barCreated := true }

/-- UI output of one visit after the `get_status` call itself
(src/app.py lines 250-281): the status line, the progress-bar creation
on the first visit, the bar update for `"queued"` (fixed 5) or
`"processing"`/`"in_progress"` (`max(current_prog, 10)`), then on
terminal success the ready banner, bar 100 and the download attempt
(whose failure is caught and shown), or on terminal failure the
failure banner. -/
def pollBodyEvents (j : Job) (cp : Int) : List Event :=
  let s := newStatusOf j
  [Event.statusShown j.idx s]
  ++ (if j.barCreated then [] else [Event.barCreated j.idx])
  ++ (if s = "queued" then [Event.barSet j.idx 5]
      else if s = "processing" ∨ s = "in_progress" then
        [Event.barSet j.idx (max cp 10)]
      else [])
  ++ (if s = "succeeded" ∨ s = "completed" then
        [Event.ready j.idx, Event.barSet j.idx 100]
        ++ (match download_video j.dl with
            | .ok _ => [Event.videoShown j.idx]
            | .error m => [Event.dlFailed j.idx m])
      else if s = "failed" ∨ s = "rejected" ∨ s = "error" then
        [Event.failedMsg j.idx]
      else [])

/-- Whether the visit removes the job from `active_jobs`: true exactly
for the two terminal branches of src/app.py lines 261 and 278. -/
def pollIsTerminal (j : Job) : Bool :=
  let s := newStatusOf j
  if s = "succeeded" ∨ s = "completed" then true
  else if s = "failed" ∨ s = "rejected" ∨ s = "error" then true
  else false

/-- Result of one visit once `int(progress)` has not raised. -/
def pollJobOk (j : Job) (cp : Int) : Job × List Event × Bool :=
  (pollNewJob j, Event.polled j.idx :: pollBodyEvents j cp, pollIsTerminal j)

/-- One visit of one job inside the `for job in reversed(active_jobs)`
body (src/app.py lines 245-281): issue `get_status`, render status and
progress bar, then classify — `"succeeded"`/`"completed"` is terminal
success (remove, set bar 100, download), `"failed"`/`"rejected"`/
`"error"` is terminal failure (remove), anything else leaves the job
active.  Returns the updated job, its emitted events, and whether it
was removed; a raised exception (from `int(progress)`) is `.error`. -/
def pollJob (j : Job) : Except String (Job × List Event × Bool) :=
  (currentProg j).map (pollJobOk j)

/-- Python `list.remove(x)`: delete the first element equal to `x`
(here: carrying the same unique placeholder, i.e. the same `idx`). -/
def removeFirst (p : Job → Bool) : List Job → List Job
  | [] => []
  | x :: xs => if p x then xs else x :: removeFirst p xs

/-- The list update performed by one visit: the visited dictionary is
mutated in place (`set i j2`), and if the job reached a terminal status
`active_jobs.remove(job)` deletes the first element equal to it. -/
def tickRemove (i : Nat) (j j2 : Job) (term : Bool) (lst : List Job) : List Job :=
  let lst2 := lst.set i j2
  if term then removeFirst (fun x => x.idx == j.idx) lst2 else lst2

/-- The `for job in reversed(active_jobs)` loop, following CPython
reversed-iterator semantics: the iterator holds an index starting at
`len - 1`; each step yields the element at that index of the live list
(stopping if the index is out of range) and then decrements it.
`tickAux i lst` runs the iteration from index `i` downwards. -/
def tickAux : Nat → List Job → Except String (List Job × List Event)
  | i, lst =>
    match lst[i]? with
    | none => .ok (lst, [])
    | some j =>
      match pollJob j with
      | .error e => .error e
      | .ok (j2, evs, term) =>
        match i with
        | 0 => .ok (tickRemove 0 j j2 term lst, evs)
        | k + 1 =>
          match tickAux k (tickRemove (k + 1) j j2 term lst) with
          | .error e => .error e
          | .ok (fin, evs2) => .ok (fin, evs ++ evs2)

/-- One full pass of the for loop over the current `active_jobs`. -/
def runTick (lst : List Job) : Except String (List Job × List Event) :=
  tickAux (lst.length - 1) lst

/-- The `while active_jobs:` polling loop (src/app.py lines 242-281),
with fuel bounding the number of iterations that are run: each
iteration sleeps 4 time units and then performs one `runTick`.  An
uncaught exception aborts the whole loop. -/
def runLoop : Nat → List Job → Except String (List Job × List Event)
  | 0, lst => .ok (lst, [])
  | fuel + 1, lst =>
    if lst.isEmpty then .ok (lst, [])
    else
      match runTick lst with
      | .error e => .error e
      | .ok (lst2, evs) =>
        match runLoop fuel lst2 with
        | .error e => .error e
        | .ok (fin, evs2) => .ok (fin, Event.slept 4 :: (evs ++ evs2))

/-- The submission loop of `main` (src/app.py lines 219-231), from
position `i0` on: each member is submitted once via `create_job`; if
the returned dictionary has a truthy `"error"` the member is reported
with `st.error` and skipped (`continue`); otherwise a job entry is
appended whose id is `job_data["id"]` (a missing id key would raise
`KeyError`, modelled as `.error`).  `schedules`/`dls` give each
position its poll-response environment and download outcome. -/
def startJobsAux (schedules : Nat → Nat → TransportResult)
    (dls : Nat → DownloadTransport) :
    Nat → List TransportResult → Except String (List Job × List Event)
  | _, [] => .ok ([], [])
  | i, r :: rest =>
    let jd := create_job r
    let errv := jd.error.getD ""
    if errv ≠ "" then
      match startJobsAux schedules dls (i + 1) rest with
      | .error e => .error e
      | .ok (js, evs) =>
        .ok (js, Event.submitAttempt i :: Event.submitError i errv :: evs)
    else
      match jd.id with
      | none => .error "KeyError: id"
      | some vid =>
        match startJobsAux schedules dls (i + 1) rest with
        | .error e => .error e
        | .ok (js, evs) =>
          .ok ({ idx := i, id := vid, polls := 0, schedule := schedules i,
                 dl := dls i, barCreated := false } :: js,
               Event.submitAttempt i :: evs)

/-- Submission phase of a batch whose i-th submission has transport
outcome `subResponses[i]`. -/
def startJobs (subResponses : List TransportResult)
    (schedules : Nat → Nat → TransportResult) (dls : Nat → DownloadTransport) :
    Except String (List Job × List Event) :=
  startJobsAux schedules dls 0 subResponses

/-- The generate path of `main` after the two guard clauses: submit the
batch, return early if no job started, otherwise poll until the active
set is empty (bounded by `fuel`). -/
def mainRun (fuel : Nat) (subResponses : List TransportResult)
    (schedules : Nat → Nat → TransportResult) (dls : Nat → DownloadTransport) :
    Except String (List Job × List Event) :=
  match startJobs subResponses schedules dls with
  | .error e => .error e
  | .ok (jobs, evs) =>
    if jobs.isEmpty then .ok ([], evs)
    else
      match runLoop fuel jobs with
      | .error e => .error e
      | .ok (fin, evs2) => .ok (fin, evs ++ evs2)

/-- Submission indices of the jobs still in the active set. -/
def activeIdxs (r : Except String (List Job × List Event)) : List Nat :=
  match r with
  | .ok p => p.1.map Job.idx
  | .error _ => []

/-- Event trace of a run (empty if the run aborted). -/
def eventsOf (r : Except String (List Job × List Event)) : List Event :=
  match r with
  | .ok p => p.2
  | .error _ => []

/-- Indices of the `polled` events of a trace, in order. -/
def polledIdxs (evs : List Event) : List Nat :=
  evs.filterMap fun e =>
    match e with
    | .polled i => some i
    | _ => none

/-- Number of polls recorded in a trace. -/
def polledCount (evs : List Event) : Nat :=
  (polledIdxs evs).length

/-- Progress-bar update values displayed for job `i`, in order. -/
def barReadings (i : Nat) (evs : List Event) : List Int :=
  evs.filterMap fun e =>
    match e with
    | .barSet k v => if k = i then some v else none
    | _ => none

/-- Indices of the `submitAttempt` events of a trace, in order. -/
def attemptIdxs (evs : List Event) : List Nat :=
  evs.filterMap fun e =>
    match e with
    | .submitAttempt i => some i
    | _ => none

/-- An HTTP 200 response with the given JSON body. -/
def okJson (d : ResponseDict) : TransportResult :=
  .http 200 "" d

/-- A poll response body carrying only a status. -/
def stResp (s : String) : TransportResult :=
  okJson { status := some s }

/-- A poll response body carrying a status and a numeric progress. -/
def stProgResp (s : String) (p : Int) : TransportResult :=
  okJson { status := some s, progress := some (.num p) }

/-- A job whose every poll fails at the transport level. -/
def c1job : Job :=
  { idx := 0, id := "video-aaaaaa", polls := 0,
    schedule := fun _ => .transportError "boom",
    dl := .http 200 none 3, barCreated := false }

/-- A job whose remote status is always the string canceled. -/
def c2job : Job :=
  { idx := 7, id := "video-cccccc", polls := 0,
    schedule := fun _ => stResp "canceled",
    dl := .http 200 none 3, barCreated := false }

/-- A job polled through queued, processing(0), processing(37),
completed — the response sequence of the claim. -/
def c4job : Job :=
  { idx := 0, id := "video-dddddd", polls := 0,
    schedule := fun n =>
      match n with
      | 0 => stResp "queued"
      | 1 => stProgResp "processing" 0
      | 2 => stProgResp "processing" 37
      | _ => stResp "completed",
    dl := .http 200 none 3, barCreated := false }

/-- A job whose poll reports a truthy non-numeric progress value. -/
def c10jobF : Job :=
  { idx := 1, id := "video-ffffff", polls := 0,
    schedule := fun _ => okJson { status := some "processing",
                                  progress := some (.str "fast") },
    dl := .http 200 none 3, barCreated := false }

/-- A benign sibling of `c10jobF` in the same batch. -/
def c10jobA : Job :=
  { idx := 0, id := "video-gggggg", polls := 0,
    schedule := fun _ => stProgResp "processing" 20,
    dl := .http 200 none 3, barCreated := false }

/-- Submission outcomes for a batch of two whose first submission gets
HTTP 401. -/
def c5Responses : List TransportResult :=
  [.http 401 "" { }, okJson { id := some "video-bbbbbb" }]

/-- Poll environment used where the polls themselves are irrelevant. -/
def idleSchedules : Nat → Nat → TransportResult :=
  fun _ _ => stResp "queued"

/-- Download environment used where downloads are irrelevant. -/
def idleDls : Nat → DownloadTransport :=
  fun _ => .http 200 none 3

/-- Submission outcomes for a batch of three whose second submission
fails with HTTP 500 and body boom. -/
def c6Responses : List TransportResult :=
  [okJson { id := some "video-a11111" }, .http 500 "boom" { },
   okJson { id := some "video-c33333" }]

/-- Poll environment for the batch of three: member 0 completes on its
first poll, member 2 renders once and then fails. -/
def c6Schedules : Nat → Nat → TransportResult :=
  fun i n =>
    match i with
    | 0 => stResp "completed"
    | 2 => match n with
           | 0 => stProgResp "processing" 50
           | _ => stResp "failed"
    | _ => stResp "queued"

/-- An always-rendering job used to exercise one full tick. -/
def c8jobA : Job :=
  { idx := 0, id := "video-h00000", polls := 0,
    schedule := fun _ => stProgResp "processing" 30,
    dl := .http 200 none 3, barCreated := false }

/-- A second always-rendering job for the same tick. -/
def c8jobB : Job :=
  { idx := 1, id := "video-h11111", polls := 0,
    schedule := fun _ => stProgResp "processing" 60,
    dl := .http 200 none 3, barCreated := false }

/-- Two always-rendering jobs used to exercise one full tick. -/
def c8jobs : List Job :=
  [c8jobA, c8jobB]

/-- The uncaught-exception message of a run, if it aborted. -/
def abortMsg (r : Except String (List Job × List Event)) : Option String :=
  match r with
  | .error e => some e
  | .ok _ => none

/-- Polled indices distribute over trace concatenation. -/
theorem polledIdxs_append (a b : List Event) :
    polledIdxs (a ++ b) = polledIdxs a ++ polledIdxs b := by
  simp [polledIdxs]

/-- Polled indices of a cons: the head contributes its index exactly
when it is a `polled` event. -/
theorem polledIdxs_cons (e : Event) (l : List Event) :
    polledIdxs (e :: l) =
      (match e with | Event.polled i => [i] | _ => []) ++ polledIdxs l := by
  cases e <;> rfl

/-- Polled indices of the empty trace. -/
theorem polledIdxs_nil : polledIdxs [] = [] := rfl

/-- The UI output of a visit contains no `polled` event: the single
`get_status` call is the only poll of a visit. -/
theorem polledIdxs_pollBodyEvents (j : Job) (cp : Int) :
    polledIdxs (pollBodyEvents j cp) = [] := by
  unfold pollBodyEvents
  cases h : download_video j.dl <;>
  · simp only [h, polledIdxs_append, polledIdxs_cons, polledIdxs_nil]
    split_ifs <;> simp [polledIdxs_cons, polledIdxs_nil]

/-- Characterization of a non-raising visit. -/
theorem pollJob_ok_iff {j : Job} {r : Job × List Event × Bool} :
    pollJob j = .ok r ↔ ∃ cp, currentProg j = .ok cp ∧ r = pollJobOk j cp := by
  unfold pollJob
  cases h : currentProg j with
  | error e => simp [Except.map]
  | ok cp => simp [Except.map, eq_comm]

/-- Decomposition of a successful visit into its three components. -/
theorem pollJob_ok_parts {j j2 : Job} {evs : List Event} {t : Bool}
    (h : pollJob j = .ok (j2, evs, t)) :
    j2 = pollNewJob j ∧
      (∃ cp, evs = Event.polled j.idx :: pollBodyEvents j cp) ∧
      t = pollIsTerminal j := by
  rcases pollJob_ok_iff.mp h with ⟨cp, _, hr⟩
  simp only [pollJobOk, Prod.ext_iff] at hr
  exact ⟨hr.1, ⟨cp, hr.2.1⟩, hr.2.2⟩

/-- A visit preserves the job identity (the placeholder). -/
theorem pollJob_ok_idx {j j2 : Job} {evs : List Event} {t : Bool}
    (h : pollJob j = .ok (j2, evs, t)) : j2.idx = j.idx := by
  rcases pollJob_ok_parts h with ⟨h1, _, _⟩
  rw [h1]; rfl

/-- A visit issues exactly one poll, for the visited job. -/
theorem pollJob_polledIdxs {j j2 : Job} {evs : List Event} {t : Bool}
    (h : pollJob j = .ok (j2, evs, t)) : polledIdxs evs = [j.idx] := by
  rcases pollJob_ok_parts h with ⟨_, ⟨cp, h2⟩, _⟩
  rw [h2, polledIdxs_cons, polledIdxs_pollBodyEvents]
  rfl

/-- Removing an element keeps only elements of the original list. -/
theorem removeFirst_subset {p : Job → Bool} {l : List Job} {x : Job}
    (h : x ∈ removeFirst p l) : x ∈ l := by
  induction l with
  | nil => simp [removeFirst] at h
  | cons a as ih =>
    simp only [removeFirst] at h
    by_cases hp : p a
    · rw [if_pos hp] at h
      exact List.mem_cons_of_mem _ h
    · rw [if_neg hp] at h
      rcases List.mem_cons.mp h with h1 | h1
      · exact h1 ▸ List.mem_cons_self _ _
      · exact List.mem_cons_of_mem _ (ih h1)

/-- When no element before `j` matches and `j` does, `remove` deletes
exactly `j`. -/
theorem removeFirst_append {p : Job → Bool} (pre suf : List Job) (j : Job)
    (hpre : ∀ x ∈ pre, p x = false) (hj : p j = true) :
    removeFirst p (pre ++ j :: suf) = pre ++ suf := by
  induction pre with
  | nil => simp [removeFirst, hj]
  | cons a as ih =>
    have ha := hpre a (List.mem_cons_self a as)
    simp only [List.cons_append, removeFirst, ha]
    simp [ih (fun x hx => hpre x (List.mem_cons_of_mem a hx))]

/-- Iterator exhausted: the tick leaves the list untouched. -/
theorem tickAux_none {i : Nat} {lst : List Job} (h : lst[i]? = none) :
    tickAux i lst = .ok (lst, []) := by
  unfold tickAux
  rw [h]

/-- A raising visit aborts the tick. -/
theorem tickAux_error {i : Nat} {lst : List Job} {j : Job} {e : String}
    (h1 : lst[i]? = some j) (h2 : pollJob j = .error e) :
    tickAux i lst = .error e := by
  unfold tickAux
  rw [h1]
  simp only [h2]

/-- Last step of the iteration (index 0). -/
theorem tickAux_zero {lst : List Job} {j j2 : Job} {evs : List Event} {term : Bool}
    (h1 : lst[0]? = some j) (h2 : pollJob j = .ok (j2, evs, term)) :
    tickAux 0 lst = .ok (tickRemove 0 j j2 term lst, evs) := by
  unfold tickAux
  rw [h1]
  simp only [h2]

/-- Inner step of the iteration: visit index `k + 1`, then continue at
index `k` on the updated list. -/
theorem tickAux_succ {k : Nat} {lst : List Job} {j j2 : Job} {evs : List Event}
    {term : Bool}
    (h1 : lst[k + 1]? = some j) (h2 : pollJob j = .ok (j2, evs, term)) :
    tickAux (k + 1) lst =
      match tickAux k (tickRemove (k + 1) j j2 term lst) with
      | .error e => .error e
      | .ok (fin, evs2) => .ok (fin, evs ++ evs2) := by
  conv_lhs => unfold tickAux
  rw [h1]
  simp only [h2]

theorem take_idx_ne {lst : List Job} {k : Nat} {j : Job}
    (hj : lst[k]? = some j) (hnd : (lst.map Job.idx).Nodup) :
    ∀ x ∈ lst.take k, (x.idx == j.idx) = false := by
  intro x hx
  have hk : k < lst.length := by
    by_contra hc
    rw [List.getElem?_eq_none (Nat.le_of_not_lt hc)] at hj
    cases hj
  have hkM : k < (lst.map Job.idx).length := by simpa using hk
  have hjM : (lst.map Job.idx)[k]? = some j.idx := by
    rw [List.getElem?_map, hj]; rfl
  have hjMget : (lst.map Job.idx)[k] = j.idx := by
    rw [List.getElem?_eq_getElem hkM] at hjM
    exact Option.some.inj hjM
  have hmemj : j.idx ∈ (lst.map Job.idx).drop k := by
    rw [List.drop_eq_getElem_cons hkM, hjMget]
    exact List.mem_cons_self _ _
  have hmemx : x.idx ∈ (lst.map Job.idx).take k := by
    rw [← List.map_take]
    exact List.mem_map_of_mem Job.idx hx
  have hne : x.idx ≠ j.idx := by
    intro he
    exact List.disjoint_take_drop hnd (Nat.le_refl k) hmemx (he ▸ hmemj)
  exact beq_eq_false_iff_ne.mpr hne

theorem tickRemove_true_eq {lst : List Job} {k : Nat} {j j2 : Job}
    (hk : k < lst.length) (hj : lst[k]? = some j) (hidx : j2.idx = j.idx)
    (hnd : (lst.map Job.idx).Nodup) :
    tickRemove k j j2 true lst = lst.take k ++ lst.drop (k + 1) := by
  unfold tickRemove
  simp only [if_pos rfl]
  rw [List.set_eq_take_cons_drop j2 hk]
  exact removeFirst_append _ _ _ (take_idx_ne hj hnd) (beq_iff_eq.mpr hidx)

theorem tickRemove_false_eq {lst : List Job} {k : Nat} {j j2 : Job} :
    tickRemove k j j2 false lst = lst.set k j2 := by
  unfold tickRemove
  simp

theorem map_idx_set_eq {lst : List Job} {k : Nat} {j j2 : Job}
    (hk : k < lst.length) (hj : lst[k]? = some j) (hidx : j2.idx = j.idx) :
    (lst.set k j2).map Job.idx = lst.map Job.idx := by
  have hkM : k < (lst.map Job.idx).length := by simpa using hk
  have hjM : (lst.map Job.idx)[k] = j.idx := by
    have h1 : (lst.map Job.idx)[k]? = some j.idx := by
      rw [List.getElem?_map, hj]; rfl
    rw [List.getElem?_eq_getElem hkM] at h1
    exact Option.some.inj h1
  rw [List.set_eq_take_cons_drop j2 hk]
  rw [List.map_append, List.map_cons, List.map_take, List.map_drop, hidx]
  conv_rhs => rw [← List.take_append_drop k (lst.map Job.idx)]
  rw [List.drop_eq_getElem_cons hkM, hjM]

theorem take_of_take_append {A B : List Job} {n : Nat} (h : A.length = n) :
    (A ++ B).take n = A := by
  subst h
  rw [List.take_append_eq_append_take, List.take_length]
  simp

theorem tickAux_polled : ∀ (k : Nat) (lst fin : List Job) (evs : List Event),
    k < lst.length → (lst.map Job.idx).Nodup →
    tickAux k lst = .ok (fin, evs) →
    polledIdxs evs = ((lst.take (k + 1)).map Job.idx).reverse := by
  intro k
  induction k with
  | zero =>
    intro lst fin evs hk hnd h
    obtain ⟨j, hj⟩ : ∃ x, lst[0]? = some x := ⟨_, List.getElem?_eq_getElem hk⟩
    cases hp : pollJob j with
    | error e =>
      rw [tickAux_error hj hp] at h
      cases h
    | ok r =>
      obtain ⟨j2, evsj, term⟩ := r
      rw [tickAux_zero hj hp] at h
      simp only [Except.ok.injEq, Prod.mk.injEq] at h
      obtain ⟨hfin, hevs⟩ := h
      rw [← hevs, pollJob_polledIdxs hp, List.take_succ, hj]
      simp
  | succ k ih =>
    intro lst fin evs hk hnd h
    obtain ⟨j, hj⟩ : ∃ x, lst[k + 1]? = some x := ⟨_, List.getElem?_eq_getElem hk⟩
    cases hp : pollJob j with
    | error e =>
      rw [tickAux_error hj hp] at h
      cases h
    | ok r =>
      obtain ⟨j2, evsj, term⟩ := r
      rw [tickAux_succ hj hp] at h
      cases hrec : tickAux k (tickRemove (k + 1) j j2 term lst) with
      | error e =>
        rw [hrec] at h
        cases h
      | ok r2 =>
        obtain ⟨fin2, evs2⟩ := r2
        rw [hrec] at h
        simp only [Except.ok.injEq, Prod.mk.injEq] at h
        obtain ⟨hfin, hevs⟩ := h
        have hidx : j2.idx = j.idx := pollJob_ok_idx hp
        have hfacts : k < (tickRemove (k + 1) j j2 term lst).length ∧
            ((tickRemove (k + 1) j j2 term lst).map Job.idx).Nodup ∧
            (tickRemove (k + 1) j j2 term lst).take (k + 1) = lst.take (k + 1) := by
          cases term with
          | false =>
            rw [tickRemove_false_eq]
            refine ⟨by simpa using Nat.lt_of_succ_lt hk, ?_, ?_⟩
            · rw [map_idx_set_eq hk hj hidx]
              exact hnd
            · rw [List.set_eq_take_cons_drop j2 hk]
              exact take_of_take_append (by simp [List.length_take]; omega)
          | true =>
            rw [tickRemove_true_eq hk hj hidx hnd]
            have hsub : List.Sublist (lst.take (k + 1) ++ lst.drop (k + 2)) lst := by
              conv_rhs => rw [← List.take_append_drop (k + 1) lst]
              apply List.Sublist.append_left
              have hdd : lst.drop (k + 2) = List.drop 1 (lst.drop (k + 1)) := by
                rw [List.drop_drop]
              rw [hdd]
              exact List.drop_sublist 1 _
            refine ⟨?_, ?_, ?_⟩
            · simp only [List.length_append, List.length_take, List.length_drop]
              omega
            · exact List.Nodup.sublist (hsub.map Job.idx) hnd
            · exact take_of_take_append (by simp [List.length_take]; omega)
        obtain ⟨hk3, hnd3, htake3⟩ := hfacts
        have ih2 := ih (tickRemove (k + 1) j j2 term lst) fin2 evs2 hk3 hnd3 hrec
        rw [htake3] at ih2
        rw [← hevs, polledIdxs_append, pollJob_polledIdxs hp, ih2]
        conv_rhs => rw [List.take_succ, hj]
        simp

theorem mem_polledIdxs {i : Nat} {evs : List Event}
    (h : Event.polled i ∈ evs) : i ∈ polledIdxs evs := by
  unfold polledIdxs
  exact List.mem_filterMap.mpr ⟨Event.polled i, h, rfl⟩

theorem pollJob_polled_mem {j j2 : Job} {evs : List Event} {t : Bool} {i : Nat}
    (h : pollJob j = .ok (j2, evs, t)) (hm : Event.polled i ∈ evs) : i = j.idx := by
  have h2 := mem_polledIdxs hm
  rw [pollJob_polledIdxs h] at h2
  simpa using h2

theorem tickRemove_idx_mem {k : Nat} {j j2 x : Job} {term : Bool} {lst : List Job}
    (hidx : j2.idx = j.idx) (hj : j ∈ lst)
    (hx : x ∈ tickRemove k j j2 term lst) : x.idx ∈ lst.map Job.idx := by
  unfold tickRemove at hx
  have hx2 : x ∈ lst.set k j2 := by
    cases term with
    | false => simpa using hx
    | true => exact removeFirst_subset (by simpa using hx)
  rcases List.mem_or_eq_of_mem_set hx2 with h1 | h1
  · exact List.mem_map_of_mem Job.idx h1
  · rw [h1, hidx]
    exact List.mem_map_of_mem Job.idx hj

theorem tickRemove_map_sub {k : Nat} {j j2 : Job} {term : Bool} {lst : List Job}
    (hidx : j2.idx = j.idx) (hj : j ∈ lst) {i : Nat}
    (hi : i ∈ (tickRemove k j j2 term lst).map Job.idx) : i ∈ lst.map Job.idx := by
  rcases List.mem_map.mp hi with ⟨x, hx, hxi⟩
  exact hxi ▸ tickRemove_idx_mem hidx hj hx

theorem tickAux_mem : ∀ (k : Nat) (lst fin : List Job) (evs : List Event),
    tickAux k lst = .ok (fin, evs) →
    (∀ x ∈ fin, x.idx ∈ lst.map Job.idx) ∧
    (∀ i, Event.polled i ∈ evs → i ∈ lst.map Job.idx) := by
  intro k
  induction k with
  | zero =>
    intro lst fin evs h
    cases hj : lst[0]? with
    | none =>
      rw [tickAux_none hj] at h
      simp only [Except.ok.injEq, Prod.mk.injEq] at h
      obtain ⟨h1, h2⟩ := h
      subst h1; subst h2
      exact ⟨fun x hx => List.mem_map_of_mem Job.idx hx, by simp⟩
    | some j =>
      cases hp : pollJob j with
      | error e =>
        rw [tickAux_error hj hp] at h
        cases h
      | ok r =>
        obtain ⟨j2, evsj, term⟩ := r
        rw [tickAux_zero hj hp] at h
        simp only [Except.ok.injEq, Prod.mk.injEq] at h
        obtain ⟨h1, h2⟩ := h
        subst h1; subst h2
        have hidx : j2.idx = j.idx := pollJob_ok_idx hp
        have hjm : j ∈ lst := List.getElem?_mem hj
        refine ⟨fun x hx => tickRemove_idx_mem hidx hjm hx, fun i hm => ?_⟩
        rw [pollJob_polled_mem hp hm]
        exact List.mem_map_of_mem Job.idx hjm
  | succ k ih =>
    intro lst fin evs h
    cases hj : lst[k + 1]? with
    | none =>
      rw [tickAux_none hj] at h
      simp only [Except.ok.injEq, Prod.mk.injEq] at h
      obtain ⟨h1, h2⟩ := h
      subst h1; subst h2
      exact ⟨fun x hx => List.mem_map_of_mem Job.idx hx, by simp⟩
    | some j =>
      cases hp : pollJob j with
      | error e =>
        rw [tickAux_error hj hp] at h
        cases h
      | ok r =>
        obtain ⟨j2, evsj, term⟩ := r
        rw [tickAux_succ hj hp] at h
        cases hrec : tickAux k (tickRemove (k + 1) j j2 term lst) with
        | error e =>
          rw [hrec] at h
          cases h
        | ok r2 =>
          obtain ⟨fin2, evs2⟩ := r2
          rw [hrec] at h
          simp only [Except.ok.injEq, Prod.mk.injEq] at h
          obtain ⟨h1, h2⟩ := h
          subst h1; subst h2
          have hidx : j2.idx = j.idx := pollJob_ok_idx hp
          have hjm : j ∈ lst := List.getElem?_mem hj
          obtain ⟨ihfin, ihevs⟩ := ih _ _ _ hrec
          constructor
          · intro x hx
            exact tickRemove_map_sub hidx hjm (ihfin x hx)
          · intro i hm
            rcases List.mem_append.mp hm with hm1 | hm1
            · rw [pollJob_polled_mem hp hm1]
              exact List.mem_map_of_mem Job.idx hjm
            · exact tickRemove_map_sub hidx hjm (ihevs i hm1)

theorem runTick_mem {lst fin : List Job} {evs : List Event}
    (h : runTick lst = .ok (fin, evs)) :
    (∀ x ∈ fin, x.idx ∈ lst.map Job.idx) ∧
    (∀ i, Event.polled i ∈ evs → i ∈ lst.map Job.idx) :=
  tickAux_mem _ _ _ _ h

theorem runLoop_nil : ∀ fuel : Nat, runLoop fuel [] = .ok ([], []) := by
  intro fuel
  cases fuel <;> rfl

theorem runLoop_polled_mem : ∀ (fuel : Nat) (lst fin : List Job) (evs : List Event),
    runLoop fuel lst = .ok (fin, evs) →
    ∀ i, Event.polled i ∈ evs → i ∈ lst.map Job.idx := by
  intro fuel
  induction fuel with
  | zero =>
    intro lst fin evs h i hm
    simp only [runLoop, Except.ok.injEq, Prod.mk.injEq] at h
    rw [← h.2] at hm
    cases hm
  | succ n ih =>
    intro lst fin evs h i hm
    by_cases he : lst.isEmpty
    · unfold runLoop at h
      rw [if_pos he] at h
      simp only [Except.ok.injEq, Prod.mk.injEq] at h
      rw [← h.2] at hm
      cases hm
    · unfold runLoop at h
      rw [if_neg he] at h
      cases ht : runTick lst with
      | error e =>
        rw [ht] at h
        cases h
      | ok r =>
        obtain ⟨lst2, evs1⟩ := r
        simp only [ht] at h
        cases hr : runLoop n lst2 with
        | error e =>
          simp only [hr] at h
          cases h
        | ok r2 =>
          obtain ⟨fin2, evs2⟩ := r2
          simp only [hr] at h
          simp only [Except.ok.injEq, Prod.mk.injEq] at h
          rw [← h.2] at hm
          rcases List.mem_cons.mp hm with hm1 | hm1
          · cases hm1
          rcases List.mem_append.mp hm1 with hm2 | hm2
          · exact (runTick_mem ht).2 i hm2
          · have hi2 := ih lst2 fin2 evs2 hr i hm2
            rcases List.mem_map.mp hi2 with ⟨x, hx, hxi⟩
            exact hxi ▸ (runTick_mem ht).1 x hx

theorem attemptIdxs_cons (e : Event) (l : List Event) :
    attemptIdxs (e :: l) =
      (match e with | Event.submitAttempt i => [i] | _ => []) ++ attemptIdxs l := by
  cases e <;> rfl

theorem startJobsAux_attempts (schedules : Nat → Nat → TransportResult)
    (dls : Nat → DownloadTransport) :
    ∀ (rs : List TransportResult) (i0 : Nat) (jobs : List Job) (evs : List Event),
    startJobsAux schedules dls i0 rs = .ok (jobs, evs) →
    attemptIdxs evs = List.range' i0 rs.length := by
  intro rs
  induction rs with
  | nil =>
    intro i0 jobs evs h
    simp only [startJobsAux, Except.ok.injEq, Prod.mk.injEq] at h
    rw [← h.2]
    rfl
  | cons r rest ih =>
    intro i0 jobs evs h
    simp only [startJobsAux] at h
    by_cases he : (create_job r).error.getD "" ≠ ""
    · rw [if_pos he] at h
      cases hrec : startJobsAux schedules dls (i0 + 1) rest with
      | error e =>
        rw [hrec] at h
        cases h
      | ok p =>
        obtain ⟨js, evs2⟩ := p
        rw [hrec] at h
        simp only [Except.ok.injEq, Prod.mk.injEq] at h
        rw [← h.2, attemptIdxs_cons, attemptIdxs_cons, ih (i0 + 1) js evs2 hrec]
        simp [List.range'_succ]
    · rw [if_neg he] at h
      cases hid : (create_job r).id with
      | none =>
        rw [hid] at h
        cases h
      | some vid =>
        rw [hid] at h
        cases hrec : startJobsAux schedules dls (i0 + 1) rest with
        | error e =>
          simp only [hrec] at h
          cases h
        | ok p =>
          obtain ⟨js, evs2⟩ := p
          simp only [hrec] at h
          simp only [Except.ok.injEq, Prod.mk.injEq] at h
          rw [← h.2, attemptIdxs_cons, ih (i0 + 1) js evs2 hrec]
          simp [List.range'_succ]

theorem startJobsAux_err (schedules : Nat → Nat → TransportResult)
    (dls : Nat → DownloadTransport) :
    ∀ (rs : List TransportResult) (i0 : Nat) (jobs : List Job) (evs : List Event)
      (d : Nat) (r : TransportResult),
    startJobsAux schedules dls i0 rs = .ok (jobs, evs) →
    rs[d]? = some r → (create_job r).error.getD "" ≠ "" →
    Event.submitError (i0 + d) ((create_job r).error.getD "") ∈ evs := by
  intro rs
  induction rs with
  | nil =>
    intro i0 jobs evs d r h hd herr
    cases hd
  | cons r0 rest ih =>
    intro i0 jobs evs d r h hd herr
    simp only [startJobsAux] at h
    by_cases he : (create_job r0).error.getD "" ≠ ""
    · rw [if_pos he] at h
      cases hrec : startJobsAux schedules dls (i0 + 1) rest with
      | error e =>
        rw [hrec] at h
        cases h
      | ok p =>
        obtain ⟨js, evs2⟩ := p
        rw [hrec] at h
        simp only [Except.ok.injEq, Prod.mk.injEq] at h
        rw [← h.2]
        cases d with
        | zero =>
          have : r = r0 := by
            rw [List.getElem?_cons_zero] at hd
            exact (Option.some.inj hd).symm
          subst this
          simp
        | succ d2 =>
          rw [List.getElem?_cons_succ] at hd
          have hmem := ih (i0 + 1) js evs2 d2 r hrec hd herr
          have harith : i0 + 1 + d2 = i0 + (d2 + 1) := by omega
          rw [harith] at hmem
          exact List.mem_cons_of_mem _ (List.mem_cons_of_mem _ hmem)
    · rw [if_neg he] at h
      cases hid : (create_job r0).id with
      | none =>
        rw [hid] at h
        cases h
      | some vid =>
        rw [hid] at h
        cases hrec : startJobsAux schedules dls (i0 + 1) rest with
        | error e =>
          simp only [hrec] at h
          cases h
        | ok p =>
          obtain ⟨js, evs2⟩ := p
          simp only [hrec] at h
          simp only [Except.ok.injEq, Prod.mk.injEq] at h
          rw [← h.2]
          cases d with
          | zero =>
            have hrr : r = r0 := by
              rw [List.getElem?_cons_zero] at hd
              exact (Option.some.inj hd).symm
            subst hrr
            exact absurd (not_not.mp he) herr
          | succ d2 =>
            rw [List.getElem?_cons_succ] at hd
            have hmem := ih (i0 + 1) js evs2 d2 r hrec hd herr
            have harith : i0 + 1 + d2 = i0 + (d2 + 1) := by omega
            rw [harith] at hmem
            exact List.mem_cons_of_mem _ hmem

theorem startJobsAux_mem (schedules : Nat → Nat → TransportResult)
    (dls : Nat → DownloadTransport) :
    ∀ (rs : List TransportResult) (i0 : Nat) (jobs : List Job) (evs : List Event),
    startJobsAux schedules dls i0 rs = .ok (jobs, evs) →
    ∀ jb ∈ jobs, ∃ d r, rs[d]? = some r ∧ jb.idx = i0 + d ∧
      (create_job r).error.getD "" = "" := by
  intro rs
  induction rs with
  | nil =>
    intro i0 jobs evs h jb hjb
    simp only [startJobsAux, Except.ok.injEq, Prod.mk.injEq] at h
    rw [← h.1] at hjb
    cases hjb
  | cons r0 rest ih =>
    intro i0 jobs evs h jb hjb
    simp only [startJobsAux] at h
    by_cases he : (create_job r0).error.getD "" ≠ ""
    · rw [if_pos he] at h
      cases hrec : startJobsAux schedules dls (i0 + 1) rest with
      | error e =>
        rw [hrec] at h
        cases h
      | ok p =>
        obtain ⟨js, evs2⟩ := p
        rw [hrec] at h
        simp only [Except.ok.injEq, Prod.mk.injEq] at h
        rw [← h.1] at hjb
        obtain ⟨d, r, hd, hidx, herr⟩ := ih (i0 + 1) js evs2 hrec jb hjb
        exact ⟨d + 1, r, by simpa using hd, by omega, herr⟩
    · rw [if_neg he] at h
      cases hid : (create_job r0).id with
      | none =>
        rw [hid] at h
        cases h
      | some vid =>
        rw [hid] at h
        cases hrec : startJobsAux schedules dls (i0 + 1) rest with
        | error e =>
          simp only [hrec] at h
          cases h
        | ok p =>
          obtain ⟨js, evs2⟩ := p
          simp only [hrec] at h
          simp only [Except.ok.injEq, Prod.mk.injEq] at h
          rw [← h.1] at hjb
          rcases List.mem_cons.mp hjb with h1 | h1
          · refine ⟨0, r0, by simp, ?_, not_not.mp he⟩
            rw [h1]
            rfl
          · obtain ⟨d, r, hd, hidx, herr⟩ := ih (i0 + 1) js evs2 hrec jb h1
            exact ⟨d + 1, r, by simpa using hd, by omega, herr⟩

theorem startJobsAux_no_polled (schedules : Nat → Nat → TransportResult)
    (dls : Nat → DownloadTransport) :
    ∀ (rs : List TransportResult) (i0 : Nat) (jobs : List Job) (evs : List Event),
    startJobsAux schedules dls i0 rs = .ok (jobs, evs) →
    ∀ i, Event.polled i ∉ evs := by
  intro rs
  induction rs with
  | nil =>
    intro i0 jobs evs h i
    simp only [startJobsAux, Except.ok.injEq, Prod.mk.injEq] at h
    rw [← h.2]
    simp
  | cons r0 rest ih =>
    intro i0 jobs evs h i
    simp only [startJobsAux] at h
    by_cases he : (create_job r0).error.getD "" ≠ ""
    · rw [if_pos he] at h
      cases hrec : startJobsAux schedules dls (i0 + 1) rest with
      | error e =>
        rw [hrec] at h
        cases h
      | ok p =>
        obtain ⟨js, evs2⟩ := p
        rw [hrec] at h
        simp only [Except.ok.injEq, Prod.mk.injEq] at h
        rw [← h.2]
        intro hmem
        rcases List.mem_cons.mp hmem with h1 | h1
        · cases h1
        rcases List.mem_cons.mp h1 with h2 | h2
        · cases h2
        · exact ih (i0 + 1) js evs2 hrec i h2
    · rw [if_neg he] at h
      cases hid : (create_job r0).id with
      | none =>
        rw [hid] at h
        cases h
      | some vid =>
        rw [hid] at h
        cases hrec : startJobsAux schedules dls (i0 + 1) rest with
        | error e =>
          simp only [hrec] at h
          cases h
        | ok p =>
          obtain ⟨js, evs2⟩ := p
          simp only [hrec] at h
          simp only [Except.ok.injEq, Prod.mk.injEq] at h
          rw [← h.2]
          intro hmem
          rcases List.mem_cons.mp hmem with h1 | h1
          · cases h1
          · exact ih (i0 + 1) js evs2 hrec i h1

/-- C9: the submit wrapper is total over its error cases: a transport
failure yields a dictionary with an error key, any HTTP error status
(401 included) yields a dictionary with an error key, and a non-error
response yields the parsed JSON body unchanged; being a total function
of the transport outcome, it propagates no exception to its caller. -/
theorem c9_create_job_total :
    (∀ msg, ((create_job (.transportError msg)).error).isSome = true) ∧
    (∀ code bodyText json, raisesForStatus code = true →
      ((create_job (.http code bodyText json)).error).isSome = true) ∧
    (∀ code bodyText json, raisesForStatus code = false →
      create_job (.http code bodyText json) = json) := by
  refine ⟨fun msg => rfl, ?_, ?_⟩
  · intro code bodyText json h
    unfold create_job
    simp only [h]
    by_cases h4 : code = 401 <;> simp [h4]
  · intro code bodyText json h
    unfold create_job
    simp [h]

/-- Witness for C9 at status 500 with a body and at a plain success. -/
theorem c9_witness :
    ((create_job (.http 500 "oops" { })).error).isSome = true ∧
    create_job (.http 200 "" { id := some "video-x" }) = { id := some "video-x" } :=
  ⟨c9_create_job_total.2.1 500 "oops" { } (by decide),
   c9_create_job_total.2.2 200 "" { id := some "video-x" } (by decide)⟩

/-- C3 counterexample: a 10 MiB artifact delivered with a known total
size produces an empty progress-invocation trace, hence zero
progress-callback invocations — the claim requires ten, and the
statement that this count equals ten is False. -/
theorem c3_counterexample :
    (download_video (.http 200 (some 10485760) 10485760)).map
        (fun p => p.2.length) = .ok 0 ∧
    ((Except.ok 0 : Except String Nat) = .ok 10) = False := by
  constructor
  · rfl
  · simp

/-- C3 amended: the download operation fetches the entire body in a
single request: a non-error response returns the whole content with an
empty progress-invocation trace (the callback is never invoked, known
size or not), and an HTTP error or transport failure fails the whole
operation with a download-failed error. -/
theorem c3_download_whole_body :
    (∀ code clen content, download_video (.http code clen content) =
      (if raisesForStatus code then
        .error ("Download failed: " ++ httpErrorStr code)
       else .ok (content, ([] : List Rat)))) ∧
    (∀ msg, download_video (.transportError msg) =
      .error ("Download failed: " ++ msg)) :=
  ⟨fun _ _ _ => rfl, fun _ => rfl⟩

/-- C4: polling the response sequence queued, processing(0),
processing(37), completed displays the progress readings 5, 10, 37,
100 in that order, and polling stops after the fourth response: with
spare fuel the job is polled exactly four times and the active set
drains. -/
theorem c4_progress_sequence :
    activeIdxs (runLoop 6 [c4job]) = [] ∧
    barReadings 0 (eventsOf (runLoop 6 [c4job])) = [5, 10, 37, 100] ∧
    polledCount (eventsOf (runLoop 6 [c4job])) = 4 := by
  decide

/-- C2 counterexample: a job whose remote status is the string canceled
is never classified as terminal: after three poll cycles it is still in
the active set, has been polled three times, and has received neither a
success nor a failure banner — it does not stop being polled. -/
theorem c2_canceled_keeps_polling :
    activeIdxs (runLoop 3 [c2job]) = [7] ∧
    polledCount (eventsOf (runLoop 3 [c2job])) = 3 ∧
    (eventsOf (runLoop 3 [c2job])).contains (Event.ready 7) = false ∧
    (eventsOf (runLoop 3 [c2job])).contains (Event.failedMsg 7) = false := by
  decide

/-- C2 amended: a poll is terminal exactly for the statuses succeeded
and completed (terminal success) and failed, rejected and error
(terminal failure); the status canceled is in neither list, so a job
reporting canceled is not removed and keeps being polled — there is no
Cancelled outcome in the code. -/
theorem c2_terminal_statuses :
    ∀ (j j2 : Job) (evs : List Event) (t : Bool),
      pollJob j = .ok (j2, evs, t) →
      ((t = true ↔ (newStatusOf j = "succeeded" ∨ newStatusOf j = "completed" ∨
          newStatusOf j = "failed" ∨ newStatusOf j = "rejected" ∨
          newStatusOf j = "error")) ∧
       (newStatusOf j = "canceled" → t = false)) := by
  intro j j2 evs t h
  have ht : t = pollIsTerminal j := (pollJob_ok_parts h).2.2
  subst ht
  simp only [pollIsTerminal]
  split_ifs with h1 h2
  · constructor
    · simp only [true_iff]
      tauto
    · intro hc
      rw [hc] at h1
      rcases h1 with h1 | h1 <;> exact absurd h1 (by decide)
  · constructor
    · simp only [true_iff]
      tauto
    · intro hc
      rw [hc] at h2
      rcases h2 with h2 | h2 | h2 <;> exact absurd h2 (by decide)
  · constructor
    · simp only [false_iff]
      tauto
    · intro _
      rfl

/-- Witness for C2 at the concrete canceled-status job: its visit is
not terminal. -/
theorem c2_witness :
    (false = true ↔ (newStatusOf c2job = "succeeded" ∨
        newStatusOf c2job = "completed" ∨ newStatusOf c2job = "failed" ∨
        newStatusOf c2job = "rejected" ∨ newStatusOf c2job = "error")) ∧
    (newStatusOf c2job = "canceled" → false = false) :=
  c2_terminal_statuses c2job (pollNewJob c2job)
    (Event.polled 7 :: pollBodyEvents c2job 0) false rfl

/-- C10: processing one poll response never raises provided the
progress field is absent, falsy, or numeric — the int conversion is
guarded only by truthiness — and for the truthy non-numeric progress
value fast the conversion raises an uncaught ValueError that aborts
the entire batch loop (both jobs stop being processed). -/
theorem c10_progress_guard :
    (∀ j : Job, ((pollResponse j).progress = none
        ∨ pyTruthy (progressOf j) = false
        ∨ (∃ n : Int, progressOf j = ProgressVal.num n)) →
      ∃ r, pollJob j = .ok r) ∧
    abortMsg (runLoop 1 [c10jobA, c10jobF]) =
      some "invalid literal for int with base 10: fast" := by
  constructor
  · intro j hj
    have hcp : ∃ cp, currentProg j = .ok cp := by
      unfold currentProg
      rcases hj with h1 | h1 | ⟨n, h1⟩
      · have h2 : progressOf j = ProgressVal.num 0 := by
          unfold progressOf
          rw [h1]
          rfl
        rw [h2]
        exact ⟨0, rfl⟩
      · rw [h1]
        exact ⟨0, rfl⟩
      · rw [h1]
        by_cases hz : pyTruthy (ProgressVal.num n)
        · rw [if_pos hz]
          exact ⟨n, rfl⟩
        · rw [if_neg hz]
          exact ⟨0, rfl⟩
    rcases hcp with ⟨cp, hcp2⟩
    exact ⟨pollJobOk j cp, pollJob_ok_iff.mpr ⟨cp, hcp2, rfl⟩⟩
  · decide

/-- Witness for C10 at a job with numeric progress 20. -/
theorem c10_witness : ∃ r, pollJob c10jobA = .ok r :=
  c10_progress_guard.1 c10jobA (Or.inr (Or.inr ⟨20, rfl⟩))

/-- C1 counterexample: a job whose poll fails at the transport level is
terminated on that same tick: the active set is empty afterwards, only
one poll was ever issued (not one more after the failure), and the job
received the failure banner. -/
theorem c1_transport_failure_terminates :
    activeIdxs (runLoop 5 [c1job]) = [] ∧
    polledCount (eventsOf (runLoop 5 [c1job])) = 1 ∧
    Event.failedMsg 0 ∈ eventsOf (runLoop 5 [c1job]) := by
  decide

/-- C1 amended: a transport-level poll failure is reported by
get_status as the status string error, which the loop classifies as
terminal failure: the visit shows the failure banner and removes the
job, and — for a single-job batch — the loop ends with exactly one
poll issued and an empty active set, whatever fuel remains; the
failure is never retried. -/
theorem c1_transport_failure_is_terminal :
    ∀ (j : Job) (msg : String) (fuel : Nat),
      j.schedule j.polls = .transportError msg →
      newStatusOf j = "error" ∧
      (∃ j2 evs, pollJob j = .ok (j2, evs, true) ∧
        Event.failedMsg j.idx ∈ evs) ∧
      activeIdxs (runLoop (fuel + 1) [j]) = [] ∧
      polledCount (eventsOf (runLoop (fuel + 1) [j])) = 1 := by
  intro j msg fuel hsched
  have hs : newStatusOf j = "error" := by
    unfold newStatusOf pollResponse
    rw [hsched]
    rfl
  have hcp : currentProg j = .ok 0 := by
    unfold currentProg progressOf pollResponse
    rw [hsched]
    rfl
  have hterm : pollIsTerminal j = true := by
    simp only [pollIsTerminal, hs]
    rfl
  have hp : pollJob j =
      .ok (pollNewJob j, Event.polled j.idx :: pollBodyEvents j 0, true) := by
    rw [pollJob_ok_iff]
    exact ⟨0, hcp, by rw [pollJobOk, hterm]⟩
  have hmem : Event.failedMsg j.idx ∈ pollBodyEvents j 0 := by
    simp only [pollBodyEvents, hs]
    cases hb : j.barCreated <;> simp
  have hfin : tickRemove 0 j (pollNewJob j) true [j] = [] := by
    unfold tickRemove removeFirst
    simp [pollNewJob]
  have htick : runTick [j] =
      .ok ([], Event.polled j.idx :: pollBodyEvents j 0) := by
    unfold runTick
    simp only [List.length_singleton, Nat.sub_self]
    rw [tickAux_zero (by rfl) hp, hfin]
  have hloop : runLoop (fuel + 1) [j] =
      .ok ([], Event.slept 4 ::
        ((Event.polled j.idx :: pollBodyEvents j 0) ++ [])) := by
    unfold runLoop
    rw [if_neg (by simp)]
    simp only [htick, runLoop_nil]
  refine ⟨hs, ⟨pollNewJob j, _, hp, List.mem_cons_of_mem _ hmem⟩, ?_, ?_⟩
  · rw [hloop]
    rfl
  · rw [hloop]
    unfold polledCount eventsOf
    rw [polledIdxs_cons, List.append_nil, polledIdxs_cons,
      polledIdxs_pollBodyEvents]
    rfl

/-- Witness for C1 at the concrete always-transport-failing job. -/
theorem c1_witness :
    newStatusOf c1job = "error" ∧
    (∃ j2 evs, pollJob c1job = .ok (j2, evs, true) ∧
      Event.failedMsg c1job.idx ∈ evs) ∧
    activeIdxs (runLoop 5 [c1job]) = [] ∧
    polledCount (eventsOf (runLoop 5 [c1job])) = 1 :=
  c1_transport_failure_is_terminal c1job "boom" 4 rfl

/-- C5 counterexample: in a batch of two whose first submission gets
HTTP 401, the second member is still submitted (two submit attempts)
and enters the polling set — the Unauthorized failure is not fatal for
the whole batch. -/
theorem c5_batch_continues_after_unauthorized :
    Event.submitError 0 invalidKeyMsg ∈
      eventsOf (startJobs c5Responses idleSchedules idleDls) ∧
    attemptIdxs (eventsOf (startJobs c5Responses idleSchedules idleDls)) =
      [0, 1] ∧
    activeIdxs (startJobs c5Responses idleSchedules idleDls) = [1] := by
  decide

/-- C5 amended: an Unauthorized submission failure is surfaced
immediately with the dedicated invalid-credentials message, is not
retried, and that member never enters the polling set; but it does not
abort the batch: every member is still submitted exactly once, in
order. -/
theorem c5_unauthorized_not_batch_fatal :
    ∀ (rs : List TransportResult) (schedules : Nat → Nat → TransportResult)
      (dls : Nat → DownloadTransport) (jobs : List Job) (evs : List Event)
      (i : Nat) (bodyText : String) (json : ResponseDict),
      startJobs rs schedules dls = .ok (jobs, evs) →
      rs[i]? = some (.http 401 bodyText json) →
      Event.submitError i invalidKeyMsg ∈ evs ∧
      attemptIdxs evs = List.range rs.length ∧
      ∀ jb ∈ jobs, jb.idx ≠ i := by
  intro rs schedules dls jobs evs i bodyText json h hi
  have he401 : (create_job (.http 401 bodyText json)).error.getD "" =
      invalidKeyMsg := rfl
  have hne : ((create_job (.http 401 bodyText json)).error.getD "") ≠ "" := by
    rw [he401]
    decide
  refine ⟨?_, ?_, ?_⟩
  · have hm := startJobsAux_err schedules dls rs 0 jobs evs i _ h hi hne
    rw [he401, Nat.zero_add] at hm
    exact hm
  · rw [startJobsAux_attempts schedules dls rs 0 jobs evs h,
      ← List.range_eq_range']
  · intro jb hjb hidx
    obtain ⟨d, r, hd, hjbd, herr⟩ :=
      startJobsAux_mem schedules dls rs 0 jobs evs h jb hjb
    rw [Nat.zero_add] at hjbd
    rw [hjbd] at hidx
    subst hidx
    rw [hd] at hi
    have hr : r = TransportResult.http 401 bodyText json :=
      Option.some.inj hi
    rw [hr, he401] at herr
    exact absurd herr (by decide)

/-- Witness for C5 at the concrete two-member batch. -/
theorem c5_witness :
    Event.submitError 0 invalidKeyMsg ∈
      ([Event.submitAttempt 0, Event.submitError 0 invalidKeyMsg,
        Event.submitAttempt 1] : List Event) ∧
    attemptIdxs [Event.submitAttempt 0, Event.submitError 0 invalidKeyMsg,
      Event.submitAttempt 1] = List.range c5Responses.length ∧
    ∀ jb ∈ ([{ idx := 1, id := "video-bbbbbb", polls := 0, schedule := idleSchedules 1, dl := idleDls 1, barCreated := false }] : List Job), jb.idx ≠ 0 :=
  c5_unauthorized_not_batch_fatal c5Responses idleSchedules idleDls _ _ 0 "" { }
    rfl rfl

/-- C6: a member whose submission fails is reported with its error and
excluded from the polling set while the rest of the batch is still
submitted and tracked: in general a failing submission at position i
yields a submit-error event carrying its error text and no polled job
with index i; in the concrete batch of three whose member 1 fails with
HTTP 500 and body boom, members 0 and 2 are polled to their own
terminal results (ready banner for 0, failure banner for 2) and the
batch drains. -/
theorem c6_submit_failure_isolated :
    (∀ (rs : List TransportResult) (schedules : Nat → Nat → TransportResult)
       (dls : Nat → DownloadTransport) (jobs : List Job) (evs : List Event)
       (i : Nat) (r : TransportResult) (msg : String),
      startJobs rs schedules dls = .ok (jobs, evs) →
      rs[i]? = some r → (create_job r).error = some msg → msg ≠ "" →
      Event.submitError i msg ∈ evs ∧ ∀ jb ∈ jobs, jb.idx ≠ i) ∧
    (activeIdxs (mainRun 3 c6Responses c6Schedules idleDls) = [] ∧
     Event.submitError 1 "boom" ∈
       eventsOf (mainRun 3 c6Responses c6Schedules idleDls) ∧
     Event.ready 0 ∈ eventsOf (mainRun 3 c6Responses c6Schedules idleDls) ∧
     Event.failedMsg 2 ∈ eventsOf (mainRun 3 c6Responses c6Schedules idleDls) ∧
     polledIdxs (eventsOf (mainRun 3 c6Responses c6Schedules idleDls)) =
       [2, 0, 2]) := by
  constructor
  · intro rs schedules dls jobs evs i r msg h hi herr hne
    have hg : (create_job r).error.getD "" = msg := by
      rw [herr]
      rfl
    have hgne : (create_job r).error.getD "" ≠ "" := by
      rw [hg]
      exact hne
    constructor
    · have hm := startJobsAux_err schedules dls rs 0 jobs evs i r h hi hgne
      rw [hg, Nat.zero_add] at hm
      exact hm
    · intro jb hjb hidx
      obtain ⟨d, r2, hd, hjbd, herr2⟩ :=
        startJobsAux_mem schedules dls rs 0 jobs evs h jb hjb
      rw [Nat.zero_add] at hjbd
      rw [hjbd] at hidx
      subst hidx
      rw [hd] at hi
      have hrr : r2 = r := Option.some.inj hi
      rw [hrr, hg] at herr2
      exact hne herr2
  · decide

/-- Witness for C6 at the concrete batch of three. -/
theorem c6_witness :
    Event.submitError 1 "boom" ∈
      ([Event.submitAttempt 0, Event.submitAttempt 1,
        Event.submitError 1 "boom", Event.submitAttempt 2] : List Event) ∧
    ∀ jb ∈ ([{ idx := 0, id := "video-a11111", polls := 0, schedule := c6Schedules 0, dl := idleDls 0, barCreated := false }, { idx := 2, id := "video-c33333", polls := 0, schedule := c6Schedules 2, dl := idleDls 2, barCreated := false }] : List Job), jb.idx ≠ 1 :=
  c6_submit_failure_isolated.1 c6Responses c6Schedules idleDls _ _ 1
    (.http 500 "boom" { }) "boom" rfl rfl rfl (by decide)

/-- C7: a submit receiving HTTP 401 yields the dedicated
invalid-credentials dictionary, unlike every other HTTP error, which
carries the response body or the HTTPError text; and a request whose
submission got 401 is never polled: no polled event with its index
ever appears in a run, whatever the fuel. -/
theorem c7_unauthorized_distinct_never_polled :
    (∀ bodyText json, create_job (.http 401 bodyText json) =
      { error := some invalidKeyMsg }) ∧
    (∀ code bodyText json, raisesForStatus code = true → code ≠ 401 →
      create_job (.http code bodyText json) =
        { error := some (if bodyText.isEmpty then httpErrorStr code
                         else bodyText) }) ∧
    (∀ (fuel : Nat) (rs : List TransportResult)
       (schedules : Nat → Nat → TransportResult) (dls : Nat → DownloadTransport)
       (fin : List Job) (evs : List Event) (i : Nat) (bodyText : String)
       (json : ResponseDict),
      rs[i]? = some (.http 401 bodyText json) →
      mainRun fuel rs schedules dls = .ok (fin, evs) →
      Event.polled i ∉ evs) := by
  refine ⟨fun _ _ => rfl, ?_, ?_⟩
  · intro code bodyText json h h401
    simp [create_job, h, h401]
  · intro fuel rs schedules dls fin evs i bodyText json hi h
    unfold mainRun at h
    cases hs : startJobs rs schedules dls with
    | error e =>
      rw [hs] at h
      cases h
    | ok p =>
      obtain ⟨jobs, evs1⟩ := p
      simp only [hs] at h
      by_cases hne : jobs.isEmpty
      · rw [if_pos hne] at h
        simp only [Except.ok.injEq, Prod.mk.injEq] at h
        rw [← h.2]
        exact startJobsAux_no_polled schedules dls rs 0 jobs evs1 hs i
      · rw [if_neg hne] at h
        cases hl : runLoop fuel jobs with
        | error e =>
          simp only [hl] at h
          cases h
        | ok p2 =>
          obtain ⟨fin2, evs2⟩ := p2
          simp only [hl] at h
          simp only [Except.ok.injEq, Prod.mk.injEq] at h
          rw [← h.2]
          intro hmem
          rcases List.mem_append.mp hmem with h1 | h1
          · exact startJobsAux_no_polled schedules dls rs 0 jobs evs1 hs i h1
          · have hin := runLoop_polled_mem fuel jobs fin2 evs2 hl i h1
            rcases List.mem_map.mp hin with ⟨jb, hjb, hji⟩
            obtain ⟨d, r, hd, hjbd, herr⟩ :=
              startJobsAux_mem schedules dls rs 0 jobs evs1 hs jb hjb
            rw [Nat.zero_add] at hjbd
            rw [hjbd] at hji
            subst hji
            rw [hd] at hi
            have hr4 : r = .http 401 bodyText json := Option.some.inj hi
            rw [hr4] at herr
            have hmsg : (create_job (.http 401 bodyText json)).error.getD "" =
                invalidKeyMsg := rfl
            rw [hmsg] at herr
            exact absurd herr (by decide)

/-- Witness for C7: the 401 dictionary, a generic 500 dictionary, and
the two-member batch whose member 0 got 401 and is never polled. -/
theorem c7_witness :
    create_job (.http 401 "" { }) = { error := some invalidKeyMsg } ∧
    create_job (.http 500 "oops" { }) =
      { error := some (if ("oops" : String).isEmpty then httpErrorStr 500
                       else "oops") } ∧
    Event.polled 0 ∉
      ([Event.submitAttempt 0, Event.submitError 0 invalidKeyMsg,
        Event.submitAttempt 1, Event.slept 4, Event.polled 1,
        Event.statusShown 1 "queued", Event.barCreated 1,
        Event.barSet 1 5] : List Event) :=
  ⟨c7_unauthorized_distinct_never_polled.1 "" { },
   c7_unauthorized_distinct_never_polled.2.1 500 "oops" { } (by decide)
     (by decide),
   c7_unauthorized_distinct_never_polled.2.2 1 c5Responses idleSchedules
     idleDls [{ idx := 1, id := "video-bbbbbb", polls := 1, schedule := idleSchedules 1, dl := idleDls 1, barCreated := true }] _ 0 "" { } rfl rfl⟩

/-- C8: on every tick of the poll loop, each job in the active set at
the start of the tick is polled exactly once during that tick: the
polled indices of one tick are exactly the active indices in reversed
insertion order, provided the job identities are pairwise distinct (as
the submission loop guarantees); mid-iteration removal of terminal
jobs removes only the element currently being visited and so never
skips or repeats a sibling. -/
theorem c8_each_active_job_polled_once :
    ∀ (lst fin : List Job) (evs : List Event),
      (lst.map Job.idx).Nodup →
      runTick lst = .ok (fin, evs) →
      polledIdxs evs = (lst.map Job.idx).reverse := by
  intro lst fin evs hnd h
  unfold runTick at h
  cases lst with
  | nil =>
    rw [tickAux_none (by simp)] at h
    simp only [Except.ok.injEq, Prod.mk.injEq] at h
    rw [← h.2]
    rfl
  | cons a rest =>
    have hk : (a :: rest).length - 1 < (a :: rest).length := by simp
    have hmain := tickAux_polled ((a :: rest).length - 1) (a :: rest) fin evs
      hk hnd h
    rw [hmain]
    have hlen : (a :: rest).length - 1 + 1 = (a :: rest).length := by simp
    rw [hlen, List.take_length]

/-- Witness for C8 at the two always-rendering jobs: the tick polls
index 1 then index 0. -/
theorem c8_witness :
    polledIdxs [Event.polled 1, Event.statusShown 1 "processing",
      Event.barCreated 1, Event.barSet 1 60, Event.polled 0,
      Event.statusShown 0 "processing", Event.barCreated 0,
      Event.barSet 0 30] = (c8jobs.map Job.idx).reverse :=
  c8_each_active_job_polled_once c8jobs [pollNewJob c8jobA, pollNewJob c8jobB]
    _ (by decide) rfl
